import Mathlib

/-!
Shallow embedding of the zstd-rs compression bindings: the block
compressor (src/block/compressor.rs) and the streaming encoder
(src/stream/encoder.rs).  The underlying codec engine (the `ll` FFI
module) is opaque to this crate, so it is modelled as a structure of
functions over an abstract context type; the crate's own control flow
is translated faithfully from the Rust source.
Bytes are modelled as natural numbers, byte buffers as lists.
-/

namespace ZstdRs

/-- Error domain of the crate: an engine status translated to a failure
by the error translator, or a downstream sink write failure. -/
inductive ZErr where
  | engineError
  | ioError
deriving DecidableEq

/-- Modelled from the spec: the Error Translator (ll::parse_code, which is
not under src/).  Given a native status code it returns success with the
associated count, or a failure, according to the engine's is-error
predicate: success carries the code itself as the byte count. -/
def parse_code (isError : Nat → Bool) (code : Nat) : Except ZErr Nat :=
  if isError code then Except.error ZErr.engineError else Except.ok code

/-- Result of the engine's ZBUFF_compressContinue primitive: the evolved
context, the bytes deposited in the destination buffer (whose length is
the out-size reported back), the number of source bytes consumed (the
in-size reported back), and the status code. -/
structure ContinueResult (Ctx : Type) where
  ctx : Ctx
  out : List Nat
  consumed : Nat
  code : Nat
deriving DecidableEq

/-- Result of an engine primitive that only produces output
(ZBUFF_compressFlush, ZBUFF_compressEnd, ZSTD_compress_usingDict):
the evolved context, the bytes deposited in the destination buffer,
and the status code. -/
structure EngineOut (Ctx : Type) where
  ctx : Ctx
  out : List Nat
  code : Nat
deriving DecidableEq

/-- Abstract model of the streaming (ZBUFF) side of the engine.
The crate treats these as opaque primitives. -/
structure ZBuffEngine (Ctx : Type) where
  compressContinue : Ctx → Nat → List Nat → ContinueResult Ctx
  compressFlush : Ctx → Nat → EngineOut Ctx
  compressEnd : Ctx → Nat → EngineOut Ctx
  freeCCtx : Ctx → Nat
  isError : Nat → Bool
  recommendedCOutSize : Nat

/-- Abstract model of the block (ZSTD one-shot) side of the engine.
compressUsingDict takes the context, the destination capacity, the
source, the dictionary and the level. -/
structure ZstdEngine (Ctx : Type) where
  compressUsingDict : Ctx → Nat → List Nat → List Nat → Int → EngineOut Ctx
  compressBound : Nat → Nat
  freeCCtx : Ctx → Nat
  isError : Nat → Bool

/-- Abstract model of a downstream sink (std::io::Write): write_all
either accepts the whole byte sequence, evolving the sink state, or
fails (none). -/
structure MWriter (W : Type) where
  writeAll : W → List Nat → Option W

/-- The concrete sink used to observe what reaches the downstream
writer: the sink state is the list of bytes received so far and
write_all always succeeds by appending. -/
def appendWriter : MWriter (List Nat) :=
  { writeAll := fun w bs => some (w ++ bs) }

/-- Outcome of EncoderContext::drop: parse_code(code).unwrap() either
succeeds or escalates a fatal invariant violation. -/
inductive DropOutcome where
  | ok
  | fatalInvariantViolation
deriving DecidableEq

/-- EncoderContext::drop of the streaming encoder
(src/stream/encoder.rs lines 15-20): calls ZBUFF_freeCCtx and unwraps
the translated status, so a non-success release status is fatal. -/
def EncoderContext.drop {Ctx : Type} (eng : ZBuffEngine Ctx) (ctx : Ctx) : DropOutcome :=
  match parse_code eng.isError (eng.freeCCtx ctx) with
  | Except.error _ => DropOutcome.fatalInvariantViolation
  | Except.ok _ => DropOutcome.ok

/-- EncoderContext::drop of the block compressor
(src/block/compressor.rs lines 15-20): calls ZSTD_freeCCtx and unwraps
the translated status. -/
def BlockEncoderContext.drop {Ctx : Type} (eng : ZstdEngine Ctx) (ctx : Ctx) : DropOutcome :=
  match parse_code eng.isError (eng.freeCCtx ctx) with
  | Except.error _ => DropOutcome.fatalInvariantViolation
  | Except.ok _ => DropOutcome.ok

/-- The streaming Encoder: the downstream writer, the internal output
buffer (its logical contents, plus its fixed capacity, which in Rust
lives inside the Vec), and the compression context. -/
structure Encoder (Ctx W : Type) where
  writer : W
  buffer : List Nat
  bufferCap : Nat
  context : Ctx
deriving DecidableEq

/-- Encoder::with_context: allocates the internal output buffer with
capacity ZBUFF_recommendedCOutSize() and length 0. -/
def Encoder.with_context {Ctx W : Type} (eng : ZBuffEngine Ctx) (writer : W) (context : Ctx) :
    Encoder Ctx W :=
  { writer := writer
    buffer := []
    bufferCap := eng.recommendedCOutSize
    context := context }

/-- The loop of Encoder::write (src/stream/encoder.rs lines 181-201),
with an explicit fuel bound on the number of iterations; none models a
run that exceeds the fuel (the Rust loop has no such bound).  Each
iteration passes the buffer capacity as the out-size and the remaining
suffix of buf to ZBUFF_compressContinue, sets the buffer length to the
reported out-size, translates the status code, drains the buffer to the
writer with write_all, and advances read by the reported in-size; the
loop exits only when read equals the input length. -/
def Encoder.writeLoop {Ctx W : Type} (eng : ZBuffEngine Ctx) (mw : MWriter W)
    (buf : List Nat) : Nat → Encoder Ctx W → Nat → Option (Except ZErr (Encoder Ctx W × Nat))
  | 0, e, read =>
      if read = buf.length then some (Except.ok (e, read)) else none
  | fuel + 1, e, read =>
      if read = buf.length then some (Except.ok (e, read))
      else
        let r := eng.compressContinue e.context e.bufferCap (List.drop read buf)
        let e1 : Encoder Ctx W := { e with context := r.ctx, buffer := r.out }
        match parse_code eng.isError r.code with
        | Except.error er => some (Except.error er)
        | Except.ok _ =>
            match mw.writeAll e1.writer e1.buffer with
            | none => some (Except.error ZErr.ioError)
            | some w2 =>
                Encoder.writeLoop eng mw buf fuel { e1 with writer := w2 } (read + r.consumed)

/-- Encoder::write (src/stream/encoder.rs lines 179-203): runs the loop
starting from read = 0 and on success returns the updated encoder
together with the returned byte count. -/
def Encoder.write {Ctx W : Type} (eng : ZBuffEngine Ctx) (mw : MWriter W) (fuel : Nat)
    (e : Encoder Ctx W) (buf : List Nat) : Option (Except ZErr (Encoder Ctx W × Nat)) :=
  Encoder.writeLoop eng mw buf fuel e 0

/-- Encoder::flush (src/stream/encoder.rs lines 205-217): passes the
buffer capacity as the out-size to ZBUFF_compressFlush, sets the buffer
length to the reported out-size, translates the status code, then
drains the buffer to the writer with write_all. -/
def Encoder.flush {Ctx W : Type} (eng : ZBuffEngine Ctx) (mw : MWriter W)
    (e : Encoder Ctx W) : Except ZErr (Encoder Ctx W) :=
  let r := eng.compressFlush e.context e.bufferCap
  let e1 : Encoder Ctx W := { e with context := r.ctx, buffer := r.out }
  match parse_code eng.isError r.code with
  | Except.error er => Except.error er
  | Except.ok _ =>
      match mw.writeAll e1.writer e1.buffer with
      | none => Except.error ZErr.ioError
      | some w2 => Except.ok { e1 with writer := w2 }

/-- Outcome of Encoder::finish: the inner writer on success, a normal
error, or the fatal invariant violation raised when the engine reports
a non-zero remaining count. -/
inductive FinishOutcome (W : Type) where
  | ok (w : W)
  | err (e : ZErr)
  | invariantViolation
deriving DecidableEq

/-- Encoder::finish (src/stream/encoder.rs lines 148-170): invokes
ZBUFF_compressEnd once with the buffer capacity as the out-size; the
translated success value is the remaining count.  A non-zero remaining
count is a fatal invariant violation; otherwise the final buffer
contents are written to the writer, whose ownership is returned. -/
def Encoder.finish {Ctx W : Type} (eng : ZBuffEngine Ctx) (mw : MWriter W)
    (e : Encoder Ctx W) : FinishOutcome W :=
  let r := eng.compressEnd e.context e.bufferCap
  match parse_code eng.isError r.code with
  | Except.error er => FinishOutcome.err er
  | Except.ok remaining =>
      if remaining ≠ 0 then FinishOutcome.invariantViolation
      else
        match mw.writeAll e.writer r.out with
        | none => FinishOutcome.err ZErr.ioError
        | some w2 => FinishOutcome.ok w2

/-- What the completion handler of the auto-finishing wrapper receives:
the io::Result from finish (the fatal invariant violation never reaches
the handler, it unwinds past it). -/
inductive IORes (W : Type) where
  | ok (w : W)
  | err (e : ZErr)
deriving DecidableEq

/-- AutoFinishEncoder (src/stream/encoder.rs lines 41-46): the encoder
and the completion handler each live in an optional slot so that drop
can take them.  The handler closure itself is opaque; the model tracks
its presence. -/
structure AutoFinishEncoder (Ctx W : Type) where
  encoder : Option (Encoder Ctx W)
  hasOnFinish : Bool
deriving DecidableEq

/-- AutoFinishEncoder::new (src/stream/encoder.rs lines 48-57): both
slots start filled. -/
def AutoFinishEncoder.new {Ctx W : Type} (e : Encoder Ctx W) : AutoFinishEncoder Ctx W :=
  { encoder := some e, hasOnFinish := true }

/-- Encoder::on_finish (src/stream/encoder.rs lines 127-131): wraps the
encoder with a caller-supplied completion handler. -/
def Encoder.on_finish {Ctx W : Type} (e : Encoder Ctx W) : AutoFinishEncoder Ctx W :=
  AutoFinishEncoder.new e

/-- Encoder::auto_finish (src/stream/encoder.rs lines 118-122): wraps
the encoder with the handler that unwraps the finish result. -/
def Encoder.auto_finish {Ctx W : Type} (e : Encoder Ctx W) : AutoFinishEncoder Ctx W :=
  Encoder.on_finish e

/-- Outcome of AutoFinishEncoder::drop: unwrapPanicked models the
unwrap of an empty encoder slot; finishFatal models the fatal invariant
violation escaping out of finish (the handler is not reached); done
carries the post-drop wrapper state and the list of handler invocations
with their arguments. -/
inductive AFDropOutcome (Ctx W : Type) where
  | unwrapPanicked
  | finishFatal (state : AutoFinishEncoder Ctx W)
  | done (state : AutoFinishEncoder Ctx W) (handlerCalls : List (IORes W))
deriving DecidableEq

/-- AutoFinishEncoder::drop (src/stream/encoder.rs lines 59-66): takes
the encoder out of its slot (unwrap: empty slot is fatal), calls finish
on it, then takes the handler out of its slot and, when present, calls
it once with the finish result. -/
def AutoFinishEncoder.drop {Ctx W : Type} (eng : ZBuffEngine Ctx) (mw : MWriter W)
    (a : AutoFinishEncoder Ctx W) : AFDropOutcome Ctx W :=
  match a.encoder with
  | none => AFDropOutcome.unwrapPanicked
  | some e =>
      match Encoder.finish eng mw e with
      | FinishOutcome.invariantViolation =>
          AFDropOutcome.finishFatal { encoder := none, hasOnFinish := a.hasOnFinish }
      | FinishOutcome.ok w =>
          AFDropOutcome.done { encoder := none, hasOnFinish := false }
            (if a.hasOnFinish then [IORes.ok w] else [])
      | FinishOutcome.err er =>
          AFDropOutcome.done { encoder := none, hasOnFinish := false }
            (if a.hasOnFinish then [IORes.err er] else [])

/-- The block Compressor (src/block/compressor.rs lines 23-27): a
context and a dictionary. -/
structure Compressor (Ctx : Type) where
  context : Ctx
  dict : List Nat
deriving DecidableEq

/-- Compressor::compress_to_buffer (src/block/compressor.rs lines
47-61): calls ZSTD_compress_usingDict with the destination's length as
the capacity and translates the status code, which on success is the
number of bytes written.  The returned list is the destination after
the engine wrote its output bytes in place at the front. -/
def Compressor.compress_to_buffer {Ctx : Type} (eng : ZstdEngine Ctx) (c : Compressor Ctx)
    (destination : List Nat) (source : List Nat) (level : Int) :
    Except ZErr (Compressor Ctx × List Nat × Nat) :=
  let r := eng.compressUsingDict c.context destination.length source c.dict level
  match parse_code eng.isError r.code with
  | Except.error er => Except.error er
  | Except.ok len =>
      Except.ok ({ c with context := r.ctx }, r.out ++ List.drop r.out.length destination, len)

/-- The Vec returned by Compressor::compress: its contents (whose list
length is the Vec's logical length) and its capacity. -/
structure Vec where
  data : List Nat
  capacity : Nat
deriving DecidableEq

/-- Compressor::compress (src/block/compressor.rs lines 64-79):
allocates a buffer of capacity ZSTD_compressBound(data.len()), sets its
length to that capacity (contents uninitialized, modelled as zeros),
delegates to compress_to_buffer on the whole buffer, and truncates the
logical length to the reported byte count. -/
def Compressor.compress {Ctx : Type} (eng : ZstdEngine Ctx) (c : Compressor Ctx)
    (data : List Nat) (lvl : Int) : Except ZErr (Compressor Ctx × Vec) :=
  let buffer_len := eng.compressBound data.length
  let buffer : List Nat := List.replicate buffer_len 0
  match Compressor.compress_to_buffer eng c buffer data lvl with
  | Except.error er => Except.error er
  | Except.ok (c2, dest2, len) =>
      Except.ok (c2, { data := List.take len dest2, capacity := buffer_len })

/-- Specification of the handoff sequence in the write loop: the chunks
of compressed bytes the engine deposits in the internal output buffer,
iteration by iteration, along the same context and read-offset
evolution the loop performs. -/
def producedChunks {Ctx : Type} (eng : ZBuffEngine Ctx) (buf : List Nat) (cap : Nat) :
    Nat → Ctx → Nat → List (List Nat)
  | 0, _, _ => []
  | fuel + 1, ctx, read =>
      if read = buf.length then []
      else
        let r := eng.compressContinue ctx cap (List.drop read buf)
        r.out :: producedChunks eng buf cap fuel r.ctx (read + r.consumed)

/-- A concrete instance of the continue primitive used to exercise the
model: it consumes up to cap + 1 source bytes and echoes up to cap of
them, always reporting success. -/
def testContinue (ctx : Nat) (cap : Nat) (src : List Nat) : ContinueResult Nat :=
  { ctx := ctx + 1
    out := List.take cap src
    consumed := min src.length (cap + 1)
    code := 0 }

/-- A concrete streaming engine instance satisfying the C-level
contract (never writes past the destination capacity, always makes
input progress): codes below 1000000 are successes. -/
def testEngine : ZBuffEngine Nat :=
  { compressContinue := testContinue
    compressFlush := fun ctx cap => { ctx := ctx + 1, out := List.take cap [9], code := 0 }
    compressEnd := fun ctx cap => { ctx := ctx + 1, out := List.take cap [5, 5], code := 0 }
    freeCCtx := fun ctx => if ctx = 99 then 1000000 else 0
    isError := fun n => decide (1000000 ≤ n)
    recommendedCOutSize := 2 }

/-- A variant of the concrete engine whose stream-end primitive reports
a non-zero remaining count (a successful code of 7). -/
def testEngineRem : ZBuffEngine Nat :=
  { testEngine with compressEnd := fun ctx _cap => { ctx := ctx, out := [], code := 7 } }

/-- A concrete block engine instance: identity compression, reporting
the source length as the written count. -/
def testBlockEngine : ZstdEngine Nat :=
  { compressUsingDict := fun ctx _dstCap src _dict _lvl =>
      { ctx := ctx + 1, out := src, code := src.length }
    compressBound := fun n => n + 8
    freeCCtx := fun _ => 0
    isError := fun n => decide (1000000 ≤ n) }

/-- A concrete encoder over the concrete engine, with an empty append
sink and context 0. -/
def enc0 : Encoder Nat (List Nat) :=
  Encoder.with_context testEngine [] 0

/-- A concrete encoder over the engine variant whose stream-end
primitive reports a non-zero remaining count. -/
def encR : Encoder Nat (List Nat) :=
  Encoder.with_context testEngineRem [] 0

theorem writeLoop_ok_length {Ctx W : Type} (eng : ZBuffEngine Ctx) (mw : MWriter W)
    (buf : List Nat) :
    ∀ (fuel read : Nat) (e e' : Encoder Ctx W) (n : Nat),
      Encoder.writeLoop eng mw buf fuel e read = some (Except.ok (e', n)) →
      n = buf.length := by
  intro fuel
  induction fuel with
  | zero =>
      intro read e e' n h
      by_cases hr : read = buf.length
      · simp only [Encoder.writeLoop, hr, if_pos] at h
        simp at h
        omega
      · simp [Encoder.writeLoop, hr] at h
  | succ fuel ih =>
      intro read e e' n h
      by_cases hr : read = buf.length
      · simp only [Encoder.writeLoop, hr, if_pos] at h
        simp at h
        omega
      · simp only [Encoder.writeLoop, hr, if_neg, ite_false] at h
        split at h
        · simp at h
        · split at h
          · simp at h
          · exact ih _ _ _ _ h

/-- C1: when Encoder::write returns success, the returned byte count
equals the input's length: the loop re-invokes the engine's continue
primitive on the remaining suffix and only exits once every input byte
has been reported consumed, so no unconsumed input is silently
discarded on a success return. -/
theorem write_ok_returns_input_length {Ctx W : Type} (eng : ZBuffEngine Ctx)
    (mw : MWriter W) (fuel : Nat) (e : Encoder Ctx W) (buf : List Nat)
    (e' : Encoder Ctx W) (n : Nat)
    (h : Encoder.write eng mw fuel e buf = some (Except.ok (e', n))) :
    n = buf.length :=
  writeLoop_ok_length eng mw buf fuel 0 e e' n h

/-- Witness for C1: a concrete successful write of three bytes reports
exactly three bytes consumed. -/
theorem write_ok_returns_input_length_w :
    (3 : Nat) = ([7, 8, 9] : List Nat).length :=
  write_ok_returns_input_length testEngine appendWriter 5 enc0 [7, 8, 9]
    { writer := [7, 8], buffer := [7, 8], bufferCap := 2, context := 1 } 3 (by rfl)

/-- C9: Encoder::write on an empty input returns Ok 0 at once: the loop
body is never entered, so the engine (whatever it is) is never invoked
and the encoder, in particular its downstream sink, is unchanged. -/
theorem write_empty_input_ok_zero {Ctx W : Type} (eng : ZBuffEngine Ctx) (mw : MWriter W)
    (fuel : Nat) (e : Encoder Ctx W) :
    Encoder.write eng mw fuel e [] = some (Except.ok (e, 0)) := by
  cases fuel <;> simp [Encoder.write, Encoder.writeLoop]

theorem writeLoop_progress {Ctx W : Type} (eng : ZBuffEngine Ctx) (mw : MWriter W)
    (buf : List Nat) (cap : Nat)
    (hcons : ∀ (ctx : Ctx) (src : List Nat), src ≠ [] →
      1 ≤ (eng.compressContinue ctx cap src).consumed)
    (hle : ∀ (ctx : Ctx) (src : List Nat),
      (eng.compressContinue ctx cap src).consumed ≤ src.length) :
    ∀ (fuel read : Nat) (e : Encoder Ctx W), e.bufferCap = cap → read ≤ buf.length →
      buf.length - read ≤ fuel → Encoder.writeLoop eng mw buf fuel e read ≠ none := by
  intro fuel
  induction fuel with
  | zero =>
      intro read e hcap hr hf
      have hrl : read = buf.length := by omega
      simp [Encoder.writeLoop, hrl]
  | succ fuel ih =>
      intro read e hcap hr hf
      by_cases hrl : read = buf.length
      · simp [Encoder.writeLoop, hrl]
      · have hlt : read < buf.length := lt_of_le_of_ne hr hrl
        have hne : List.drop read buf ≠ [] := by
          intro hdrop
          have : buf.length - read = 0 := by
            have := congrArg List.length hdrop
            simpa using this
          omega
        have hc1 : 1 ≤ (eng.compressContinue e.context cap (List.drop read buf)).consumed :=
          hcons _ _ hne
        have hc2 : (eng.compressContinue e.context cap (List.drop read buf)).consumed ≤
            (List.drop read buf).length := hle _ _
        rw [List.length_drop] at hc2
        simp only [Encoder.writeLoop, hrl, ite_false]
        rw [hcap]
        split
        · simp
        · split
          · simp
          · apply ih
            · rfl
            · omega
            · omega

/-- C10: under the engine contract that the continue primitive always
consumes at least one remaining byte when unconsumed input remains (and
never more than the remaining count), the count of unconsumed bytes
strictly decreases each iteration, so Encoder::write cannot loop
forever: a fuel budget of the input length already suffices. -/
theorem write_terminates {Ctx W : Type} (eng : ZBuffEngine Ctx) (mw : MWriter W)
    (e : Encoder Ctx W) (buf : List Nat)
    (hcons : ∀ (ctx : Ctx) (src : List Nat), src ≠ [] →
      1 ≤ (eng.compressContinue ctx e.bufferCap src).consumed)
    (hle : ∀ (ctx : Ctx) (src : List Nat),
      (eng.compressContinue ctx e.bufferCap src).consumed ≤ src.length) :
    Encoder.write eng mw buf.length e buf ≠ none :=
  writeLoop_progress eng mw buf e.bufferCap hcons hle buf.length 0 e rfl
    (Nat.zero_le _) (by omega)

/-- Witness for C10: the concrete engine consumes at least one byte per
call, so a concrete three-byte write terminates within fuel three. -/
theorem write_terminates_w :
    Encoder.write testEngine appendWriter 3 enc0 [7, 8, 9] ≠ none :=
  write_terminates testEngine appendWriter enc0 [7, 8, 9]
    (fun ctx src h => by
      simp only [testEngine, testContinue, enc0, Encoder.with_context, Nat.le_min]
      refine ⟨List.length_pos.mpr h, by norm_num⟩)
    (fun ctx src => Nat.min_le_left _ _)

theorem flush_ok_writer {Ctx : Type} (eng : ZBuffEngine Ctx) (e2 e2' : Encoder Ctx (List Nat))
    (hf : Encoder.flush eng appendWriter e2 = Except.ok e2') :
    e2'.writer = e2.writer ++ (eng.compressFlush e2.context e2.bufferCap).out := by
  simp only [Encoder.flush, appendWriter] at hf
  split at hf
  · simp at hf
  · simp at hf
    rw [← hf]

theorem writeLoop_sink_chunks {Ctx : Type} (eng : ZBuffEngine Ctx) (buf : List Nat) :
    ∀ (fuel read : Nat) (e e' : Encoder Ctx (List Nat)) (n : Nat),
      Encoder.writeLoop eng appendWriter buf fuel e read = some (Except.ok (e', n)) →
      e'.writer = e.writer ++ (producedChunks eng buf e.bufferCap fuel e.context read).flatten := by
  intro fuel
  induction fuel with
  | zero =>
      intro read e e' n h
      by_cases hr : read = buf.length
      · simp only [Encoder.writeLoop, hr, if_pos] at h
        simp at h
        simp [producedChunks, ← h.1]
      · simp [Encoder.writeLoop, hr] at h
  | succ fuel ih =>
      intro read e e' n h
      by_cases hr : read = buf.length
      · simp only [Encoder.writeLoop, hr, if_pos] at h
        simp at h
        simp [producedChunks, hr, ← h.1]
      · simp only [Encoder.writeLoop, hr, ite_false] at h
        split at h
        · simp at h
        · split at h
          · simp [appendWriter] at *
          · rename_i w2 heq
            simp only [appendWriter] at heq
            simp at heq
            have hrec := ih _ _ _ _ h
            simp at hrec
            rw [hrec, ← heq]
            simp [producedChunks, hr]

/-- C6: in every iteration of the write loop the compressed chunk the
engine deposited in the internal output buffer is drained in full
(write_all) to the downstream sink before the next continue call, and
flush likewise drains the buffer in full: observed through an appending
sink, a successful write extends the sink by exactly the concatenation
of the engine's handoff chunks, in order, and a successful flush
extends it by exactly the flushed chunk, so no compressed bytes handed
off by the engine are silently dropped by write or flush. -/
theorem write_flush_no_dropped_bytes {Ctx : Type} (eng : ZBuffEngine Ctx) (fuel : Nat)
    (e e' e2 e2' : Encoder Ctx (List Nat)) (buf : List Nat) (n : Nat)
    (hw : Encoder.write eng appendWriter fuel e buf = some (Except.ok (e', n)))
    (hf : Encoder.flush eng appendWriter e2 = Except.ok e2') :
    e'.writer = e.writer ++ (producedChunks eng buf e.bufferCap fuel e.context 0).flatten
    ∧ e2'.writer = e2.writer ++ (eng.compressFlush e2.context e2.bufferCap).out :=
  ⟨writeLoop_sink_chunks eng buf fuel 0 e e' n hw, flush_ok_writer eng e2 e2' hf⟩

/-- Witness for C6: on a concrete three-byte write the sink receives
exactly the engine's handoff chunks, and a concrete flush appends
exactly the flushed chunk. -/
theorem write_flush_no_dropped_bytes_w :
    (({ writer := [7, 8], buffer := [7, 8], bufferCap := 2, context := 1 } :
        Encoder Nat (List Nat)).writer
      = enc0.writer ++ (producedChunks testEngine [7, 8, 9] enc0.bufferCap 5 enc0.context 0).flatten)
    ∧ (({ writer := [9], buffer := [9], bufferCap := 2, context := 1 } :
        Encoder Nat (List Nat)).writer
      = enc0.writer ++ (testEngine.compressFlush enc0.context enc0.bufferCap).out) :=
  write_flush_no_dropped_bytes testEngine 5 enc0
    { writer := [7, 8], buffer := [7, 8], bufferCap := 2, context := 1 }
    enc0 { writer := [9], buffer := [9], bufferCap := 2, context := 1 }
    [7, 8, 9] 3 (by rfl) (by rfl)

/-- C5: Encoder::flush forces the engine to emit the compressed bytes
it currently holds internally, writes them to the downstream sink, and
returns: on an engine success status, flush succeeds with the sink
extended by exactly the flushed bytes, and its result is again a live
encoder value (the stream is not closed by flush, unlike finish, which
consumes the encoder), so subsequent write calls remain valid on it. -/
theorem flush_writes_and_keeps_stream_open {Ctx : Type} (eng : ZBuffEngine Ctx)
    (e : Encoder Ctx (List Nat))
    (hok : eng.isError (eng.compressFlush e.context e.bufferCap).code = false) :
    Encoder.flush eng appendWriter e = Except.ok
      { writer := e.writer ++ (eng.compressFlush e.context e.bufferCap).out
        buffer := (eng.compressFlush e.context e.bufferCap).out
        bufferCap := e.bufferCap
        context := (eng.compressFlush e.context e.bufferCap).ctx } := by
  simp [Encoder.flush, parse_code, hok, appendWriter]

/-- Witness for C5: a concrete flush on the fresh concrete encoder
succeeds and appends the flushed chunk to the sink. -/
theorem flush_writes_and_keeps_stream_open_w :
    Encoder.flush testEngine appendWriter enc0 = Except.ok
      { writer := enc0.writer ++ (testEngine.compressFlush enc0.context enc0.bufferCap).out
        buffer := (testEngine.compressFlush enc0.context enc0.bufferCap).out
        bufferCap := enc0.bufferCap
        context := (testEngine.compressFlush enc0.context enc0.bufferCap).ctx } :=
  flush_writes_and_keeps_stream_open testEngine enc0 (by rfl)

/-- C3: Encoder::finish invokes the engine's stream-end primitive once
(its definition makes a single compressEnd call); when the translated
status is a success, a non-zero remaining count escalates the fatal
invariant violation instead of returning a normal error, and a zero
remaining count leads to the final buffer contents being written to the
downstream sink, whose ownership is returned to the caller. -/
theorem finish_end_remaining_check {Ctx : Type} (eng : ZBuffEngine Ctx)
    (e : Encoder Ctx (List Nat))
    (hok : eng.isError (eng.compressEnd e.context e.bufferCap).code = false) :
    ((eng.compressEnd e.context e.bufferCap).code ≠ 0 →
      Encoder.finish eng appendWriter e = FinishOutcome.invariantViolation)
    ∧ ((eng.compressEnd e.context e.bufferCap).code = 0 →
      Encoder.finish eng appendWriter e =
        FinishOutcome.ok (e.writer ++ (eng.compressEnd e.context e.bufferCap).out)) := by
  constructor
  · intro hnz
    simp [Encoder.finish, parse_code, hok, hnz, appendWriter]
  · intro hz
    have hok0 : eng.isError 0 = false := hz ▸ hok
    simp [Encoder.finish, parse_code, hok0, hz, appendWriter]

/-- Witness for C3: over the engine variant whose stream-end reports a
remaining count of 7, a concrete finish escalates the fatal invariant
violation. -/
theorem finish_end_remaining_check_w :
    Encoder.finish testEngineRem appendWriter encR = FinishOutcome.invariantViolation :=
  (finish_end_remaining_check testEngineRem encR (by rfl)).1 (by decide)

/-- C4: dropping the auto-finishing wrapper while the encoder slot is
still occupied takes the encoder out, runs finish on it once, and
invokes the completion handler exactly once with the finish result;
after the teardown both optional slots are cleared, and a teardown of
the cleared state reaches neither the handler nor the encoder, so
double consumption is structurally impossible. -/
theorem auto_finish_drop_exactly_once {Ctx W : Type} (eng : ZBuffEngine Ctx)
    (mw : MWriter W) (e : Encoder Ctx W) (w : W)
    (hok : Encoder.finish eng mw e = FinishOutcome.ok w) :
    AutoFinishEncoder.drop eng mw (AutoFinishEncoder.new e) =
      AFDropOutcome.done { encoder := none, hasOnFinish := false } [IORes.ok w]
    ∧ AutoFinishEncoder.drop eng mw { encoder := none, hasOnFinish := false } =
      AFDropOutcome.unwrapPanicked := by
  constructor
  · simp [AutoFinishEncoder.drop, AutoFinishEncoder.new, hok]
  · simp [AutoFinishEncoder.drop]

/-- Witness for C4: dropping the wrapper around the fresh concrete
encoder invokes the handler exactly once with the successful finish
result, and the cleared wrapper state has nothing left to consume. -/
theorem auto_finish_drop_exactly_once_w :
    AutoFinishEncoder.drop testEngine appendWriter (AutoFinishEncoder.new enc0) =
      AFDropOutcome.done { encoder := none, hasOnFinish := false } [IORes.ok [5, 5]]
    ∧ AutoFinishEncoder.drop testEngine appendWriter
        ({ encoder := none, hasOnFinish := false } : AutoFinishEncoder Nat (List Nat)) =
      AFDropOutcome.unwrapPanicked :=
  auto_finish_drop_exactly_once testEngine appendWriter enc0 [5, 5] (by rfl)

/-- C7: releasing a context handle invokes the engine's free primitive
and unwraps the translated status: for both the streaming context and
the block context, the release outcome is the fatal invariant violation
exactly when the engine reports a non-success free status, which is
therefore never silently swallowed. -/
theorem context_release_status_checked {Ctx : Type} (eng : ZBuffEngine Ctx)
    (engB : ZstdEngine Ctx) (ctx ctxB : Ctx) :
    (EncoderContext.drop eng ctx = DropOutcome.fatalInvariantViolation ↔
      eng.isError (eng.freeCCtx ctx) = true)
    ∧ (BlockEncoderContext.drop engB ctxB = DropOutcome.fatalInvariantViolation ↔
      engB.isError (engB.freeCCtx ctxB) = true) := by
  constructor
  · cases hP : eng.isError (eng.freeCCtx ctx) <;>
      simp [EncoderContext.drop, parse_code, hP]
  · cases hP : engB.isError (engB.freeCCtx ctxB) <;>
      simp [BlockEncoderContext.drop, parse_code, hP]

/-- Witness for C7: the concrete engine reports a failing free status
on context 99 and a successful one on the block side, and the release
outcomes match accordingly. -/
theorem context_release_status_checked_w :
    (EncoderContext.drop testEngine 99 = DropOutcome.fatalInvariantViolation ↔
      testEngine.isError (testEngine.freeCCtx 99) = true)
    ∧ (BlockEncoderContext.drop testBlockEngine 0 = DropOutcome.fatalInvariantViolation ↔
      testBlockEngine.isError (testBlockEngine.freeCCtx 0) = true) :=
  context_release_status_checked testEngine testBlockEngine 99 0

theorem writeLoop_cap_invariant {Ctx W : Type} (eng : ZBuffEngine Ctx) (mw : MWriter W)
    (buf : List Nat)
    (hout : ∀ (ctx : Ctx) (cap : Nat) (src : List Nat),
      (eng.compressContinue ctx cap src).out.length ≤ cap) :
    ∀ (fuel read : Nat) (e e' : Encoder Ctx W) (n : Nat),
      e.buffer.length ≤ e.bufferCap →
      Encoder.writeLoop eng mw buf fuel e read = some (Except.ok (e', n)) →
      e'.bufferCap = e.bufferCap ∧ e'.buffer.length ≤ e.bufferCap := by
  intro fuel
  induction fuel with
  | zero =>
      intro read e e' n hb h
      by_cases hr : read = buf.length
      · simp only [Encoder.writeLoop, hr, if_pos] at h
        simp at h
        rw [← h.1]
        exact ⟨rfl, hb⟩
      · simp [Encoder.writeLoop, hr] at h
  | succ fuel ih =>
      intro read e e' n hb h
      by_cases hr : read = buf.length
      · simp only [Encoder.writeLoop, hr, if_pos] at h
        simp at h
        rw [← h.1]
        exact ⟨rfl, hb⟩
      · simp only [Encoder.writeLoop, hr, ite_false] at h
        split at h
        · simp at h
        · split at h
          · simp at h
          · rename_i w2 heq
            exact ih (read + (eng.compressContinue e.context e.bufferCap (List.drop read buf)).consumed)
              { writer := w2
                buffer := (eng.compressContinue e.context e.bufferCap (List.drop read buf)).out
                bufferCap := e.bufferCap
                context := (eng.compressContinue e.context e.bufferCap (List.drop read buf)).ctx }
              e' n (hout _ _ _) h

theorem flush_ok_eq {Ctx : Type} (eng : ZBuffEngine Ctx) (e2 e2' : Encoder Ctx (List Nat))
    (hf : Encoder.flush eng appendWriter e2 = Except.ok e2') :
    e2' = { writer := e2.writer ++ (eng.compressFlush e2.context e2.bufferCap).out
            buffer := (eng.compressFlush e2.context e2.bufferCap).out
            bufferCap := e2.bufferCap
            context := (eng.compressFlush e2.context e2.bufferCap).ctx } := by
  cases hP : eng.isError (eng.compressFlush e2.context e2.bufferCap).code
  · simp [Encoder.flush, parse_code, hP, appendWriter] at hf
    exact hf.symm
  · simp [Encoder.flush, parse_code, hP, appendWriter] at hf

theorem finish_ok_eq {Ctx : Type} (eng : ZBuffEngine Ctx) (e3 : Encoder Ctx (List Nat))
    (w3 : List Nat) (hfin : Encoder.finish eng appendWriter e3 = FinishOutcome.ok w3) :
    w3 = e3.writer ++ (eng.compressEnd e3.context e3.bufferCap).out := by
  cases hP : eng.isError (eng.compressEnd e3.context e3.bufferCap).code
  · by_cases hz : (eng.compressEnd e3.context e3.bufferCap).code = 0
    · have hok0 : eng.isError 0 = false := hz ▸ hP
      simp [Encoder.finish, parse_code, hok0, hz, appendWriter] at hfin
      exact hfin.symm
    · simp [Encoder.finish, parse_code, hP, hz, appendWriter] at hfin
  · simp [Encoder.finish, parse_code, hP, appendWriter] at hfin

/-- C8: the internal output buffer's capacity is fixed at construction
to the engine's recommended output size (with_context allocates an
empty buffer of that capacity), the out-size handed to the engine by
write, flush and finish is always the capacity (each definition passes
bufferCap), and under the engine contract of never producing more than
the given capacity, write and flush preserve the capacity and only vary
the logical length within it, while finish writes the sink a final
chunk bounded by the capacity; the capacity never grows. -/
theorem buffer_capacity_fixed {Ctx : Type} (eng : ZBuffEngine Ctx)
    (w0 : List Nat) (ctx0 : Ctx) (fuel : Nat) (e e' e2 e2' e3 : Encoder Ctx (List Nat))
    (buf : List Nat) (n : Nat) (w3 : List Nat)
    (houtC : ∀ (ctx : Ctx) (cap : Nat) (src : List Nat),
      (eng.compressContinue ctx cap src).out.length ≤ cap)
    (houtF : ∀ (ctx : Ctx) (cap : Nat), (eng.compressFlush ctx cap).out.length ≤ cap)
    (houtE : ∀ (ctx : Ctx) (cap : Nat), (eng.compressEnd ctx cap).out.length ≤ cap)
    (hbuf : e.buffer.length ≤ e.bufferCap)
    (hw : Encoder.write eng appendWriter fuel e buf = some (Except.ok (e', n)))
    (hf : Encoder.flush eng appendWriter e2 = Except.ok e2')
    (hfin : Encoder.finish eng appendWriter e3 = FinishOutcome.ok w3) :
    (Encoder.with_context eng w0 ctx0).bufferCap = eng.recommendedCOutSize
    ∧ (Encoder.with_context eng w0 ctx0).buffer.length = 0
    ∧ (e'.bufferCap = e.bufferCap ∧ e'.buffer.length ≤ e.bufferCap)
    ∧ (e2'.bufferCap = e2.bufferCap ∧ e2'.buffer.length ≤ e2.bufferCap)
    ∧ w3.length ≤ e3.writer.length + e3.bufferCap := by
  refine ⟨rfl, rfl, writeLoop_cap_invariant eng appendWriter buf houtC fuel 0 e e' n hbuf hw,
    ?_, ?_⟩
  · rw [flush_ok_eq eng e2 e2' hf]
    exact ⟨rfl, houtF _ _⟩
  · rw [finish_ok_eq eng e3 w3 hfin]
    simp only [List.length_append]
    exact Nat.add_le_add_left (houtE _ _) _

/-- Witness for C8: a fresh concrete encoder has the recommended
capacity 2 and empty buffer, and after a concrete successful write,
flush and finish the capacity is unchanged with the length within it. -/
theorem buffer_capacity_fixed_w :
    (Encoder.with_context testEngine ([] : List Nat) 0).bufferCap = testEngine.recommendedCOutSize
    ∧ (Encoder.with_context testEngine ([] : List Nat) 0).buffer.length = 0
    ∧ ((({ writer := [7, 8], buffer := [7, 8], bufferCap := 2, context := 1 } :
          Encoder Nat (List Nat)).bufferCap = enc0.bufferCap)
        ∧ ({ writer := [7, 8], buffer := [7, 8], bufferCap := 2, context := 1 } :
          Encoder Nat (List Nat)).buffer.length ≤ enc0.bufferCap)
    ∧ ((({ writer := [9], buffer := [9], bufferCap := 2, context := 1 } :
          Encoder Nat (List Nat)).bufferCap = enc0.bufferCap)
        ∧ ({ writer := [9], buffer := [9], bufferCap := 2, context := 1 } :
          Encoder Nat (List Nat)).buffer.length ≤ enc0.bufferCap)
    ∧ ([5, 5] : List Nat).length ≤ enc0.writer.length + enc0.bufferCap :=
  buffer_capacity_fixed testEngine ([] : List Nat) 0 5 enc0
    { writer := [7, 8], buffer := [7, 8], bufferCap := 2, context := 1 }
    enc0 { writer := [9], buffer := [9], bufferCap := 2, context := 1 }
    enc0 [7, 8, 9] 3 [5, 5]
    (fun ctx cap src => by simp [testEngine, testContinue])
    (fun ctx cap => by simp [testEngine])
    (fun ctx cap => by simp [testEngine])
    (by decide) (by rfl) (by rfl) (by rfl)

theorem compress_to_buffer_dest_length {Ctx : Type} (eng : ZstdEngine Ctx)
    (c c' : Compressor Ctx) (dest source : List Nat) (lvl : Int) (d' : List Nat) (len : Nat)
    (h : Compressor.compress_to_buffer eng c dest source lvl = Except.ok (c', d', len)) :
    dest.length ≤ d'.length := by
  cases hP : eng.isError (eng.compressUsingDict c.context dest.length source c.dict lvl).code
  · simp [Compressor.compress_to_buffer, parse_code, hP] at h
    rw [← h.2.1]
    simp [List.length_append, List.length_drop]
    omega
  · simp [Compressor.compress_to_buffer, parse_code, hP] at h

/-- C2: Compressor::compress allocates its output buffer with capacity
ZSTD_compressBound of the input length, sets the buffer's length to
that capacity, delegates to compress_to_buffer on that whole buffer,
and on success returns a Vec whose logical length is exactly the byte
count compress_to_buffer reported, the contents truncated to that count
while the capacity stays the full bound. -/
theorem compress_bound_capacity_exact_length {Ctx : Type} (eng : ZstdEngine Ctx)
    (c c' : Compressor Ctx) (data : List Nat) (lvl : Int) (d' : List Nat) (len : Nat)
    (hlen : len ≤ eng.compressBound data.length)
    (hrun : Compressor.compress_to_buffer eng c
      (List.replicate (eng.compressBound data.length) 0) data lvl = Except.ok (c', d', len)) :
    Compressor.compress eng c data lvl =
      Except.ok (c', { data := List.take len d', capacity := eng.compressBound data.length })
    ∧ (List.take len d').length = len := by
  constructor
  · simp [Compressor.compress, hrun]
  · have hd := compress_to_buffer_dest_length eng c c' _ data lvl d' len hrun
    simp at hd
    simp [List.length_take]
    omega

/-- Witness for C2: a concrete three-byte compression over the identity
block engine yields a Vec of logical length 3 and capacity 11. -/
theorem compress_bound_capacity_exact_length_w :
    Compressor.compress testBlockEngine { context := 0, dict := [] } [1, 2, 3] 3 =
      Except.ok ({ context := 1, dict := [] },
        { data := List.take 3 [1, 2, 3, 0, 0, 0, 0, 0, 0, 0, 0]
          capacity := testBlockEngine.compressBound ([1, 2, 3] : List Nat).length })
    ∧ (List.take 3 [1, 2, 3, 0, 0, 0, 0, 0, 0, 0, 0]).length = 3 :=
  compress_bound_capacity_exact_length testBlockEngine { context := 0, dict := [] }
    { context := 1, dict := [] } [1, 2, 3] 3 [1, 2, 3, 0, 0, 0, 0, 0, 0, 0, 0] 3
    (by decide) (by rfl)

end ZstdRs
